import Mathlib

/-!
Shallow embedding of the resilient email service
(`EmailService.js`, `utils.js` / `providers.js`) and proofs about its
behaviour.

Conventions of the embedding:
* JS timestamps (`Date.now()`) are `Nat` values passed explicitly to each
  operation; one top-level operation uses a single timestamp.
* Provider functions are identified by their index in the provider array;
  the outcome of each individual provider invocation is supplied by an
  environment `env : Nat → Nat → Except String String` (provider index,
  per-provider invocation counter ↦ result or error message).
* Promises of queued submissions are identified by a fresh `Nat`
  (`promiseId`); their resolution/rejection is recorded in a
  `settlements` list.
* The embedding additionally records ghost instrumentation that the JS
  code makes observable but does not store: the sequence of provider
  invocations (`contactTrace`) and the sequence of writes to the status
  map (`statusLog`).
-/

namespace ResilientEmail

/-- Email lifecycle status (the `EmailStatus` typedef of `EmailService.js`). -/
inductive EmailStatus where
  | pending
  | processing
  | sent
  | failed
deriving DecidableEq, Repr

/-- Per-provider circuit breaker state (the `CircuitState` typedef). -/
structure CircuitState where
  isOpen : Bool
  lastFailureTime : Nat
  failureCount : Nat
  halfOpenAttempts : Nat
deriving DecidableEq, Repr

/-- The fresh circuit state installed for every provider by the constructor. -/
def freshCircuit : CircuitState :=
  { isOpen := false, lastFailureTime := 0, failureCount := 0, halfOpenAttempts := 0 }

/-- The numeric configuration of the service, after defaulting. -/
structure Config where
  maxRetries : Nat
  initialRetryDelay : Nat
  idempotencyWindowMs : Nat
  rateLimitWindowMs : Nat
  maxRequestsPerWindow : Nat
  circuitBreakerThreshold : Nat
  circuitBreakerTimeoutMs : Nat
  circuitBreakerHalfOpenAttempts : Nat
deriving DecidableEq, Repr

/-- The numeric options object passed to the constructor; `none` models an
absent (`undefined`) field. -/
structure ServiceOptions where
  maxRetries : Option Nat
  initialRetryDelay : Option Nat
  idempotencyWindowMs : Option Nat
  rateLimitWindowMs : Option Nat
  maxRequestsPerWindow : Option Nat
  circuitBreakerThreshold : Option Nat
  circuitBreakerTimeoutMs : Option Nat
  circuitBreakerHalfOpenAttempts : Option Nat
deriving DecidableEq, Repr

/-- JavaScript `options.x || d`: an absent field and the falsy value `0`
both yield the default `d`. -/
def jsOrDefault (v : Option Nat) (d : Nat) : Nat :=
  match v with
  | none => d
  | some n => if n = 0 then d else n

/-- The defaulting performed by the `EmailService` constructor
(`EmailService.js`, lines 39-73). -/
def mkConfig (o : ServiceOptions) : Config :=
  { maxRetries := jsOrDefault o.maxRetries 3
    initialRetryDelay := jsOrDefault o.initialRetryDelay 100
    idempotencyWindowMs := jsOrDefault o.idempotencyWindowMs 60000
    rateLimitWindowMs := jsOrDefault o.rateLimitWindowMs 1000
    maxRequestsPerWindow := jsOrDefault o.maxRequestsPerWindow 10
    circuitBreakerThreshold := jsOrDefault o.circuitBreakerThreshold 3
    circuitBreakerTimeoutMs := jsOrDefault o.circuitBreakerTimeoutMs 5000
    circuitBreakerHalfOpenAttempts := jsOrDefault o.circuitBreakerHalfOpenAttempts 1 }

/-- An options object with every numeric field absent. -/
def noOptions : ServiceOptions :=
  { maxRetries := none, initialRetryDelay := none, idempotencyWindowMs := none
    rateLimitWindowMs := none, maxRequestsPerWindow := none
    circuitBreakerThreshold := none, circuitBreakerTimeoutMs := none
    circuitBreakerHalfOpenAttempts := none }

/-- An options object with every numeric field explicitly set to `0`. -/
def zeroOptions : ServiceOptions :=
  { maxRetries := some 0, initialRetryDelay := some 0, idempotencyWindowMs := some 0
    rateLimitWindowMs := some 0, maxRequestsPerWindow := some 0
    circuitBreakerThreshold := some 0, circuitBreakerTimeoutMs := some 0
    circuitBreakerHalfOpenAttempts := some 0 }

/-! ### The backoff executor (`retryWithBackoff` in `utils.js`) -/

/-- Result of a `retryWithBackoff` run: the value returned (or the
aggregate error thrown), the number of times the wrapped operation was
invoked, and the list of delays slept between attempts, in order. -/
instance : DecidableEq (Except String String)
  | Except.ok a, Except.ok b =>
      if h : a = b then Decidable.isTrue (congrArg Except.ok h)
      else Decidable.isFalse (fun hc => h (Except.ok.inj hc))
  | Except.ok _, Except.error _ => Decidable.isFalse (fun hc => Except.noConfusion hc)
  | Except.error _, Except.ok _ => Decidable.isFalse (fun hc => Except.noConfusion hc)
  | Except.error a, Except.error b =>
      if h : a = b then Decidable.isTrue (congrArg Except.error h)
      else Decidable.isFalse (fun hc => h (Except.error.inj hc))

structure RetryResult where
  result : Except String String
  invocations : Nat
  delays : List Nat
deriving DecidableEq, Repr

/-- The exhaustion message built by `retryWithBackoff` after the retry
budget is spent.  The grouping makes explicit that the last underlying
error message is a suffix of the aggregate message. -/
def exhaustedMessage (maxRetries : Nat) (emailId : String) (lastError : Option String) : String :=
  ("Failed after " ++ toString (maxRetries + 1) ++ " attempts for email " ++ emailId
      ++ ". Last error: ")
    ++ lastError.getD "Unknown error"

/-- The `while (attempt <= maxRetries)` loop of `retryWithBackoff`.
`fuel` is `maxRetries + 1 - attempt`, `currentDelay` the mutable delay
variable.  Note the loop multiplies `currentDelay` by `2` before every
sleep, including the first one. -/
def retryLoop (op : Nat → Except String String) (maxRetries : Nat) (emailId : String) :
    Nat → Nat → Nat → Option String → RetryResult
  | 0, _, _, lastError =>
      { result := Except.error (exhaustedMessage maxRetries emailId lastError)
        invocations := 0, delays := [] }
  | fuel + 1, attempt, currentDelay, _ =>
      match op attempt with
      | Except.ok r => { result := Except.ok r, invocations := 1, delays := [] }
      | Except.error e =>
          if attempt + 1 ≤ maxRetries then
            let d := currentDelay * 2
            let rest := retryLoop op maxRetries emailId fuel (attempt + 1) d (some e)
            { result := rest.result, invocations := rest.invocations + 1
              delays := d :: rest.delays }
          else
            { result := Except.error (exhaustedMessage maxRetries emailId (some e))
              invocations := 1, delays := [] }

/-- `retryWithBackoff(fn, maxRetries, delay, emailId, logger)` from
`utils.js` (logging omitted).  `op a` is the outcome of the wrapped
operation on its `a`-th invocation (0-based). -/
def retryWithBackoff (op : Nat → Except String String) (maxRetries delay : Nat)
    (emailId : String) : RetryResult :=
  retryLoop op maxRetries emailId (maxRetries + 1) 0 delay none

/-! ### Service state and the circuit breaker / rate limiter operations -/

/-- An email submission (`emailData`).  Absent (`undefined`) fields are
modelled as empty strings, which are exactly the falsy strings of the
JS validation check. -/
structure EmailData where
  emailId : String
  /-- the `to` field of `emailData` (`to` is reserved in Lean) -/
  recipient : String
  subject : String
  body : String
deriving DecidableEq, Repr

/-- A queued submission together with the identity of the promise handed
to the original caller. -/
structure QueueEntry where
  emailData : EmailData
  promiseId : Nat
deriving DecidableEq, Repr

/-- The possible values returned by (or thrown from) `sendEmail`. -/
inductive SendOutcome where
  /-- the validation error thrown for missing fields -/
  | invalid
  /-- the "already sent" message returned by the idempotency check,
  carrying the current status of the id (`undefined` ↦ `none`) -/
  | alreadyProcessed (status : Option EmailStatus)
  /-- the pending promise returned when the submission is rate-limited
  and queued -/
  | queued (promiseId : Nat)
  /-- the settled result of an inline `_processSend` run -/
  | completed (result : Except String String)
deriving DecidableEq, Repr

/-- The mutable fields of an `EmailService` instance, together with the
ghost instrumentation `contactTrace` / `statusLog` / `settlements`. -/
structure ServiceState where
  sentEmailIds : List String
  requestTimestamps : List Nat
  emailStatuses : List (String × EmailStatus)
  emailQueue : List QueueEntry
  isProcessingQueue : Bool
  circuits : Nat → CircuitState
  currentProviderIndex : Nat
  /-- per-provider count of invocations performed so far -/
  invocations : Nat → Nat
  /-- every provider invocation, in order: (provider index, email id) -/
  contactTrace : List (Nat × String)
  /-- every write to the status map, in order -/
  statusLog : List (String × EmailStatus)
  nextPromiseId : Nat
  /-- every resolution/rejection of a queued caller's promise, in order -/
  settlements : List (Nat × Except String String)

/-- The state of a freshly constructed service. -/
def initialState : ServiceState :=
  { sentEmailIds := [], requestTimestamps := [], emailStatuses := []
    emailQueue := [], isProcessingQueue := false
    circuits := fun _ => freshCircuit, currentProviderIndex := 0
    invocations := fun _ => 0, contactTrace := [], statusLog := []
    nextPromiseId := 0, settlements := [] }

/-- `Map.set` on the status map: replace the binding if the key is
present, append it otherwise. -/
def mapSet (m : List (String × EmailStatus)) (k : String) (v : EmailStatus) :
    List (String × EmailStatus) :=
  match m with
  | [] => [(k, v)]
  | (k', v') :: rest => if k' = k then (k, v) :: rest else (k', v') :: mapSet rest k v

/-- `Map.get` on the status map. -/
def mapGet (m : List (String × EmailStatus)) (k : String) : Option EmailStatus :=
  match m with
  | [] => none
  | (k', v') :: rest => if k' = k then some v' else mapGet rest k

/-- `this.emailStatuses.set(id, v)` plus the ghost log of the write. -/
def setStatus (st : ServiceState) (id : String) (v : EmailStatus) : ServiceState :=
  { st with emailStatuses := mapSet st.emailStatuses id v
            statusLog := st.statusLog ++ [(id, v)] }

/-- `getEmailStatus(emailId)` (`EmailService.js`, lines 318-320). -/
def getEmailStatus (st : ServiceState) (emailId : String) : Option EmailStatus :=
  mapGet st.emailStatuses emailId

/-- `_isCircuitOpen(provider)` (`EmailService.js`, lines 102-119), acting
on the provider's circuit state.  Returns the blocking decision and the
(possibly mutated) state: an open circuit whose timeout has elapsed flips
to half-open (`isOpen := false`, failure count untouched) and does not
block. -/
def isCircuitOpenCheck (cfg : Config) (now : Nat) (cs : CircuitState) :
    Bool × CircuitState :=
  if cs.isOpen then
    if cfg.circuitBreakerTimeoutMs < now - cs.lastFailureTime then
      (false, { cs with isOpen := false, halfOpenAttempts := 0 })
    else
      (true, cs)
  else
    (false, cs)

/-- `_recordFailure(provider)` (`EmailService.js`, lines 126-137). -/
def recordFailure (cfg : Config) (now : Nat) (cs : CircuitState) : CircuitState :=
  let cs' := { cs with failureCount := cs.failureCount + 1, lastFailureTime := now }
  if cs'.isOpen = false ∧ cfg.circuitBreakerThreshold ≤ cs'.failureCount then
    { cs' with isOpen := true }
  else
    cs'

/-- `_recordSuccess(provider)` (`EmailService.js`, lines 144-156). -/
def recordSuccess (cs : CircuitState) : CircuitState :=
  { cs with isOpen := false, failureCount := 0, halfOpenAttempts := 0 }

/-- The pruning filter of `_isRateLimited`: keep the timestamps strictly
younger than the window. -/
def pruneWindow (windowMs now : Nat) (ts : List Nat) : List Nat :=
  ts.filter (fun t => now - t < windowMs)

/-- `_isRateLimited()` (`EmailService.js`, lines 163-176): prune the
shared window, deny (recording nothing) if the pruned window is full,
otherwise record `now` and admit.  Returns the decision and the new
window. -/
def isRateLimited (cfg : Config) (now : Nat) (ts : List Nat) : Bool × List Nat :=
  let pruned := pruneWindow cfg.rateLimitWindowMs now ts
  if cfg.maxRequestsPerWindow ≤ pruned.length then
    (true, pruned)
  else
    (false, pruned ++ [now])

/-! ### `_processSend`, `_processQueue` and `sendEmail` -/

/-- The aggregate error message thrown when every provider was skipped or
exhausted. -/
def allFailedMessage (emailId : String) (lastError : Option String) : String :=
  "All providers failed for email " ++ emailId ++ ". Last error: "
    ++ lastError.getD "Unknown error."

/-- Write `cs` into the circuit-state map at provider index `q`. -/
def updateCircuit (st : ServiceState) (q : Nat) (cs : CircuitState) : ServiceState :=
  { st with circuits := Function.update st.circuits q cs }

/-- Account a block of `k` consecutive invocations of provider `q` on
behalf of email `id` (ghost instrumentation of one `retryWithBackoff`
call). -/
def recordInvocations (st : ServiceState) (q k : Nat) (id : String) : ServiceState :=
  { st with invocations := Function.update st.invocations q (st.invocations q + k)
            contactTrace := st.contactTrace ++ List.replicate k (q, id) }

/-- The success epilogue of the provider loop: `_recordSuccess`, status
`sent`, and the sticky provider index. -/
def markSuccess (st : ServiceState) (q : Nat) (id : String) : ServiceState :=
  setStatus
    { (updateCircuit st q (recordSuccess (st.circuits q))) with currentProviderIndex := q }
    id EmailStatus.sent

/-- The provider fallback loop of `_processSend` (`EmailService.js`,
lines 229-264).  `n` is the number of providers, `i` the loop counter,
`rem = n - i` the remaining iterations (the structural fuel), `lastError`
the mutable `lastError` variable.  When the loop falls through, the
status is set to `failed` in the `try` block and once more by the outer
`catch` that re-marks it before rethrowing. -/
def providerLoop (cfg : Config) (env : Nat → Nat → Except String String) (n : Nat)
    (now : Nat) (d : EmailData) :
    Nat → Nat → Option String → ServiceState → Except String String × ServiceState
  | _, 0, lastError, st =>
      let st' := setStatus (setStatus st d.emailId EmailStatus.failed) d.emailId EmailStatus.failed
      (Except.error (allFailedMessage d.emailId lastError), st')
  | i, rem + 1, _, st =>
      let pIdx := (st.currentProviderIndex + i) % n
      let check := isCircuitOpenCheck cfg now (st.circuits pIdx)
      let st1 := updateCircuit st pIdx check.2
      if check.1 then
        providerLoop cfg env n now d (i + 1) rem
          (some ("Circuit open for provider " ++ toString pIdx)) st1
      else
        let rr := retryWithBackoff (fun a => env pIdx (st1.invocations pIdx + a)) cfg.maxRetries
          cfg.initialRetryDelay d.emailId
        let st2 := recordInvocations st1 pIdx rr.invocations d.emailId
        match rr.result with
        | Except.ok r =>
            (Except.ok r, markSuccess st2 pIdx d.emailId)
        | Except.error e =>
            providerLoop cfg env n now d (i + 1) rem (some e)
              (updateCircuit st2 pIdx (recordFailure cfg now (st2.circuits pIdx)))

/-- `_processSend(emailData)` without its `finally` queue drain (the
drain is appended by the callers below, matching the JS control flow). -/
def processSendCore (cfg : Config) (env : Nat → Nat → Except String String) (n : Nat)
    (now : Nat) (d : EmailData) (st : ServiceState) : Except String String × ServiceState :=
  providerLoop cfg env n now d 0 n none st

/-- Overwrite the shared admission window. -/
def setWindow (st : ServiceState) (ts : List Nat) : ServiceState :=
  { st with requestTimestamps := ts }

/-- Overwrite the pending queue. -/
def setQueue (st : ServiceState) (q : List QueueEntry) : ServiceState :=
  { st with emailQueue := q }

/-- Overwrite the `isProcessingQueue` re-entrancy flag. -/
def setProcessingFlag (st : ServiceState) (b : Bool) : ServiceState :=
  { st with isProcessingQueue := b }

/-- Settle a queued caller's promise (resolve or reject) exactly once. -/
def settleEntry (st : ServiceState) (pid : Nat) (r : Except String String) : ServiceState :=
  { st with settlements := st.settlements ++ [(pid, r)] }

/-- Push a submission onto the tail of the pending queue, paired with a
fresh promise for the caller. -/
def enqueueEntry (st : ServiceState) (d : EmailData) : ServiceState :=
  { st with emailQueue := st.emailQueue ++ [⟨d, st.nextPromiseId⟩]
            nextPromiseId := st.nextPromiseId + 1 }

/-- `this.sentEmailIds.add(id)`. -/
def markHandled (st : ServiceState) (id : String) : ServiceState :=
  { st with sentEmailIds := st.sentEmailIds ++ [id] }

/-- The `while` loop of `_processQueue` (`EmailService.js`, lines
290-303).  The queue shrinks by one entry per iteration, so the queue
length is sufficient fuel.  The `finally` drain of the inner
`_processSend` is a no-op here because `isProcessingQueue` is true for
the whole loop. -/
def processQueueLoop (cfg : Config) (env : Nat → Nat → Except String String) (n : Nat)
    (now : Nat) : Nat → ServiceState → ServiceState
  | 0, st => st
  | fuel + 1, st =>
      match st.emailQueue with
      | [] => st
      | entry :: rest =>
          let rl := isRateLimited cfg now st.requestTimestamps
          let st1 := setWindow st rl.2
          if rl.1 then
            st1
          else
            let pr := processSendCore cfg env n now entry.emailData (setQueue st1 rest)
            processQueueLoop cfg env n now fuel (settleEntry pr.2 entry.promiseId pr.1)

/-- `_processQueue()` (`EmailService.js`, lines 284-311).  The trailing
`setTimeout` re-drain for a still non-empty queue is modelled by the
external `Event.drain` below. -/
def processQueue (cfg : Config) (env : Nat → Nat → Except String String) (n : Nat)
    (now : Nat) (st : ServiceState) : ServiceState :=
  if st.isProcessingQueue then st
  else if st.emailQueue.isEmpty then st
  else
    let st1 := setProcessingFlag st true
    setProcessingFlag (processQueueLoop cfg env n now st1.emailQueue.length st1) false

/-- `sendEmail(emailData)` (`EmailService.js`, lines 187-214): validate,
short-circuit duplicates through the idempotency set, queue when
rate-limited (triggering an immediate drain attempt), otherwise mark the
id, set its status to `processing` and run `_processSend` (whose
`finally` triggers a drain). -/
def sendEmail (cfg : Config) (env : Nat → Nat → Except String String) (n : Nat)
    (now : Nat) (d : EmailData) (st : ServiceState) : SendOutcome × ServiceState :=
  if d.emailId = "" ∨ d.recipient = "" ∨ d.subject = "" ∨ d.body = "" then
    (SendOutcome.invalid, st)
  else if st.sentEmailIds.contains d.emailId then
    (SendOutcome.alreadyProcessed (mapGet st.emailStatuses d.emailId), st)
  else
    let rl := isRateLimited cfg now st.requestTimestamps
    let st1 := setWindow st rl.2
    if rl.1 then
      (SendOutcome.queued st1.nextPromiseId,
        processQueue cfg env n now (enqueueEntry st1 d))
    else
      let st2 := setStatus (markHandled st1 d.emailId) d.emailId EmailStatus.processing
      let pr := processSendCore cfg env n now d st2
      (SendOutcome.completed pr.1, processQueue cfg env n now pr.2)

/-- The operations an external caller (or the JS event loop) can perform:
a submission at a given time, or the firing of a scheduled queue drain. -/
inductive Event where
  | send (now : Nat) (d : EmailData)
  | drain (now : Nat)

/-- One externally triggered operation. -/
def step (cfg : Config) (env : Nat → Nat → Except String String) (n : Nat)
    (st : ServiceState) : Event → ServiceState
  | Event.send now d => (sendEmail cfg env n now d st).2
  | Event.drain now => processQueue cfg env n now st

/-- Run a sequence of operations against a freshly constructed service. -/
def run (cfg : Config) (env : Nat → Nat → Except String String) (n : Nat)
    (events : List Event) : ServiceState :=
  events.foldl (step cfg env n) initialState

/-! ### Lemmas about the backoff executor -/

theorem retryLoop_delays_getD (op : Nat → Except String String) (m : Nat) (id : String) :
    ∀ (fuel attempt c : Nat) (le : Option String) (i : Nat),
      i < (retryLoop op m id fuel attempt c le).delays.length →
      (retryLoop op m id fuel attempt c le).delays.getD i 0 = 2 ^ (i + 1) * c := by
  intro fuel
  induction fuel with
  | zero => intro attempt c le i h; simp [retryLoop] at h
  | succ f ih =>
      intro attempt c le i h
      simp only [retryLoop] at h ⊢
      cases hop : op attempt with
      | ok r => simp [hop] at h
      | error e =>
          simp only [hop] at h ⊢
          by_cases hle : attempt + 1 ≤ m
          · simp only [if_pos hle] at h ⊢
            cases i with
            | zero => simp [pow_succ]; ring
            | succ i' =>
                simp only [List.length_cons, Nat.succ_lt_succ_iff] at h
                have := ih (attempt + 1) (c * 2) (some e) i' h
                simp only [List.getD_cons_succ, this]
                ring
          · simp [if_neg hle] at h

theorem retryLoop_all_fail (op : Nat → Except String String) (m : Nat) (id : String)
    (es : Nat → String) (hop : ∀ i, i ≤ m → op i = Except.error (es i)) :
    ∀ (fuel attempt c : Nat) (le : Option String),
      attempt + fuel = m + 1 → 1 ≤ fuel →
      (retryLoop op m id fuel attempt c le).result
          = Except.error (exhaustedMessage m id (some (es m))) ∧
      (retryLoop op m id fuel attempt c le).invocations = fuel := by
  intro fuel
  induction fuel with
  | zero => intro attempt c le hsum hf; omega
  | succ f ih =>
      intro attempt c le hsum _
      have hatt : attempt ≤ m := by omega
      have hope := hop attempt hatt
      by_cases hle : attempt + 1 ≤ m
      · have := ih (attempt + 1) (c * 2) (some (es attempt)) (by omega) (by omega)
        simp only [retryLoop, hope, if_pos hle]
        exact ⟨this.1, by rw [this.2]⟩
      · have hm : attempt = m := by omega
        have hf0 : f = 0 := by omega
        subst hm; subst hf0
        simp [retryLoop, hope, if_neg hle]

theorem retryLoop_succeeds (op : Nat → Except String String) (m : Nat) (id : String)
    (j : Nat) (v : String) (hj : j ≤ m)
    (hfail : ∀ i, i < j → ∃ e, op i = Except.error e)
    (hok : op j = Except.ok v) :
    ∀ (fuel attempt c : Nat) (le : Option String),
      attempt + fuel = m + 1 → attempt ≤ j →
      (retryLoop op m id fuel attempt c le).result = Except.ok v ∧
      (retryLoop op m id fuel attempt c le).invocations = j + 1 - attempt := by
  intro fuel
  induction fuel with
  | zero => intro attempt c le hsum hle; omega
  | succ f ih =>
      intro attempt c le hsum hle
      by_cases hai : attempt = j
      · subst hai
        refine ⟨by simp [retryLoop, hok], by simp [retryLoop, hok]⟩
      · have hlt : attempt < j := lt_of_le_of_ne hle hai
        obtain ⟨e, he⟩ := hfail attempt hlt
        have h1 : attempt + 1 ≤ m := by omega
        have := ih (attempt + 1) (c * 2) (some e) (by omega) (by omega)
        simp only [retryLoop, he, if_pos h1]
        exact ⟨this.1, by rw [this.2]; omega⟩

/-! ### Claim C5: the inter-attempt delays of the backoff executor -/

/-- C5, counterexample: the claim says the delay between attempt 1 and
attempt 2 equals `initialRetryDelay`.  With `maxRetries = 1`,
`initialRetryDelay = 100` and an always-failing operation, the executor
performs exactly one inter-attempt sleep, and it is `200` ms, not `100`:
`currentDelay` is doubled before the first sleep. -/
theorem first_backoff_delay_is_doubled :
    (retryWithBackoff (fun _ => Except.error "boom") 1 100 "email-1").delays = [200] ∧
    (retryWithBackoff (fun _ => Except.error "boom") 1 100 "email-1").delays ≠ [100] := by
  exact ⟨by decide, by decide⟩

/-- C5, amended: in the backoff executor, the k-th inter-attempt delay
(1-indexed, here 0-indexed as `i = k - 1`) equals
`2 ^ k * initialRetryDelay`: the delay between attempt 1 and attempt 2 is
`2 * initialRetryDelay`, the next is `4 * initialRetryDelay`, and so on. -/
theorem backoff_delays_double_from_twice_initial
    (op : Nat → Except String String) (maxRetries delay : Nat) (emailId : String)
    (i : Nat) (h : i < (retryWithBackoff op maxRetries delay emailId).delays.length) :
    (retryWithBackoff op maxRetries delay emailId).delays.getD i 0 = 2 ^ (i + 1) * delay :=
  retryLoop_delays_getD op maxRetries emailId (maxRetries + 1) 0 delay none i h

/-- Witness for `backoff_delays_double_from_twice_initial`: with
`maxRetries = 2`, `initialRetryDelay = 100` and an always-failing
operation there are two inter-attempt delays, and the second one is
`2 ^ 2 * 100 = 400`. -/
theorem backoff_delays_double_witness :
    1 < (retryWithBackoff (fun _ => Except.error "boom") 2 100 "email-1").delays.length ∧
    (retryWithBackoff (fun _ => Except.error "boom") 2 100 "email-1").delays.getD 1 0
      = 2 ^ (1 + 1) * 100 :=
  ⟨by decide,
    backoff_delays_double_from_twice_initial (fun _ => Except.error "boom") 2 100 "email-1" 1
      (by decide)⟩

/-! ### Claim C6: the attempt budget and the surfaced error -/

/-- C6: an operation that fails on every attempt is invoked exactly
`maxRetries + 1` times and the executor then raises an aggregate
exhaustion error whose message embeds the last underlying error's
message; an operation that first succeeds on (0-indexed) attempt `j` with
`j ≤ maxRetries` yields that attempt's result after exactly `j + 1`
invocations. -/
theorem retry_budget_and_error_surfacing
    (op : Nat → Except String String) (maxRetries delay : Nat) (emailId : String)
    (es : Nat → String) (j : Nat) (v : String) :
    ((∀ i, i ≤ maxRetries → op i = Except.error (es i)) →
      (retryWithBackoff op maxRetries delay emailId).invocations = maxRetries + 1 ∧
      (retryWithBackoff op maxRetries delay emailId).result
        = Except.error (exhaustedMessage maxRetries emailId (some (es maxRetries))) ∧
      ∃ p, exhaustedMessage maxRetries emailId (some (es maxRetries)) = p ++ es maxRetries) ∧
    ((∀ i, i < j → ∃ e, op i = Except.error e) → op j = Except.ok v → j ≤ maxRetries →
      (retryWithBackoff op maxRetries delay emailId).result = Except.ok v ∧
      (retryWithBackoff op maxRetries delay emailId).invocations = j + 1) := by
  constructor
  · intro hop
    have h := retryLoop_all_fail op maxRetries emailId es hop (maxRetries + 1) 0 delay none
      (by omega) (by omega)
    exact ⟨h.2, h.1,
      "Failed after " ++ toString (maxRetries + 1) ++ " attempts for email " ++ emailId
        ++ ". Last error: ", rfl⟩
  · intro hfail hok hj
    have h := retryLoop_succeeds op maxRetries emailId j v hj hfail hok (maxRetries + 1) 0
      delay none (by omega) (by omega)
    exact ⟨h.1, h.2.trans (by omega)⟩

/-- Witness for `retry_budget_and_error_surfacing`: an always-failing
operation with `maxRetries = 2` is invoked 3 times and surfaces the last
error message; an operation succeeding on attempt index 1 returns its
value after 2 invocations. -/
theorem retry_budget_witness :
    ((retryWithBackoff (fun i => Except.error ("err" ++ toString i)) 2 100 "email-1").invocations = 3 ∧
      (retryWithBackoff (fun i => Except.error ("err" ++ toString i)) 2 100 "email-1").result
        = Except.error (exhaustedMessage 2 "email-1" (some "err2")) ∧
      ∃ p, exhaustedMessage 2 "email-1" (some "err2") = p ++ "err2") ∧
    ((retryWithBackoff (fun i => if i = 0 then Except.error "e0" else Except.ok "done")
        2 100 "email-1").result = Except.ok "done" ∧
      (retryWithBackoff (fun i => if i = 0 then Except.error "e0" else Except.ok "done")
        2 100 "email-1").invocations = 2) :=
  ⟨by
      have h := (retry_budget_and_error_surfacing
        (fun i => Except.error ("err" ++ toString i)) 2 100 "email-1"
        (fun i => "err" ++ toString i) 0 "").1 (fun i _ => rfl)
      exact ⟨h.1, h.2.1, h.2.2⟩,
    (retry_budget_and_error_surfacing
        (fun i => if i = 0 then Except.error "e0" else Except.ok "done") 2 100 "email-1"
        (fun _ => "") 1 "done").2
      (by intro i hi; have h0 : i = 0 := by omega
          subst h0; exact ⟨"e0", rfl⟩) rfl (by omega)⟩

/-! ### Claim C9: explicit zeroes in the options fall back to the defaults -/

/-- C9: because the constructor defaults every numeric option with the
JavaScript `||` operator, explicitly passing `0` yields the documented
default instead of `0` for each of the eight numeric knobs; in
particular, a service constructed with `maxRetries = 0` gives each
provider `3 + 1 = 4` attempts, not `1`. -/
theorem zero_options_yield_defaults :
    mkConfig zeroOptions = mkConfig noOptions ∧
    mkConfig zeroOptions =
      { maxRetries := 3, initialRetryDelay := 100, idempotencyWindowMs := 60000
        rateLimitWindowMs := 1000, maxRequestsPerWindow := 10
        circuitBreakerThreshold := 3, circuitBreakerTimeoutMs := 5000
        circuitBreakerHalfOpenAttempts := 1 } ∧
    (retryWithBackoff (fun _ => Except.error "boom") (mkConfig zeroOptions).maxRetries
        100 "email-1").invocations = 4 := by
  exact ⟨by decide, by decide, by decide⟩

/-! ### A concrete duplicate-through-the-queue scenario (claims C1 and C2)

A service with one always-succeeding provider,
`maxRequestsPerWindow = 1` and `rateLimitWindowMs = 1000` (all other
options at their defaults), driven by four operations:

1. `sendEmail` of id `"A"` at t=0 — admitted, fills the window;
2. `sendEmail` of id `"X"` at t=1 — rate-limited, queued;
3. the scheduled queue drain fires at t=2000 — `"X"` is admitted,
   the provider is contacted, `"X"` becomes `sent`; the queue path never
   records `"X"` in the idempotency set `sentEmailIds`;
4. `sendEmail` of id `"X"` again at t=4000 — the idempotency check does
   not fire, the submission is admitted and fully reprocessed.
-/

/-- Configuration of the duplicate-through-the-queue scenario. -/
def demoConfig : Config :=
  { maxRetries := 3, initialRetryDelay := 100, idempotencyWindowMs := 60000
    rateLimitWindowMs := 1000, maxRequestsPerWindow := 1
    circuitBreakerThreshold := 3, circuitBreakerTimeoutMs := 5000
    circuitBreakerHalfOpenAttempts := 1 }

/-- A single provider whose every invocation succeeds. -/
def okEnv : Nat → Nat → Except String String := fun _ _ => Except.ok "ok"

/-- First submission, id `"A"`. -/
def taskA : EmailData :=
  { emailId := "A", recipient := "a@example.com", subject := "s", body := "b" }

/-- The submission that is queued and later duplicated, id `"X"`. -/
def taskX : EmailData :=
  { emailId := "X", recipient := "x@example.com", subject := "s", body := "b" }

/-- The four operations of the duplicate-through-the-queue scenario. -/
def duplicateEvents : List Event :=
  [Event.send 0 taskA, Event.send 1 taskX, Event.drain 2000, Event.send 4000 taskX]

/-- C1: the claim fails on the code.  In the scenario above the provider
is contacted once for `"A"` and twice for `"X"`: the first `"X"`
submission was processed from the pending queue, which never records the
id in `sentEmailIds`, so the second `sendEmail` with the same id passes
the idempotency check and starts a second provider contact sequence
(outcome `completed`, not `alreadyProcessed`). -/
theorem duplicate_after_queue_contacts_provider_twice :
    (run demoConfig okEnv 1 duplicateEvents).contactTrace
      = [(0, "A"), (0, "X"), (0, "X")] ∧
    (sendEmail demoConfig okEnv 1 4000 taskX
        (run demoConfig okEnv 1 (duplicateEvents.take 3))).1
      = SendOutcome.completed (Except.ok "ok") := by
  exact ⟨by decide, by decide⟩

/-- C2: the claim fails on the code.  In the scenario above the status
map writes for id `"X"` are, in order, `sent` (when the queue processes
it), then `processing` (when the duplicate submission is admitted and
re-marked), then `sent` again: a terminal `sent` status is reverted to
`processing` by a later `sendEmail` with the same id. -/
theorem queue_sent_status_reverts_to_processing :
    ((run demoConfig okEnv 1 duplicateEvents).statusLog.filter
        (fun e => e.1 = "X")).map Prod.snd
      = [EmailStatus.sent, EmailStatus.processing, EmailStatus.sent] := by
  decide

/-! ### Lemmas about the circuit breaker -/

/-- `_recordFailure` always increments the consecutive-failure count. -/
theorem recordFailure_failureCount (cfg : Config) (now : Nat) (cs : CircuitState) :
    (recordFailure cfg now cs).failureCount = cs.failureCount + 1 := by
  simp only [recordFailure]
  split <;> rfl

/-- A single `_recordFailure` leaves (or makes) the circuit open whenever
the incremented count meets the threshold. -/
theorem recordFailure_opens_of_threshold (cfg : Config) (now : Nat) (cs : CircuitState)
    (h : cfg.circuitBreakerThreshold ≤ cs.failureCount + 1) :
    (recordFailure cfg now cs).isOpen = true := by
  unfold recordFailure
  by_cases ho : cs.isOpen
  · simp [ho]
  · simp [ho, h]

/-- After at least one recorded failure, and enough consecutive recorded
failures to reach the threshold in total, the circuit is open. -/
theorem foldl_recordFailure_opens (cfg : Config) :
    ∀ (ts : List Nat) (cs : CircuitState), 1 ≤ ts.length →
      cfg.circuitBreakerThreshold ≤ cs.failureCount + ts.length →
      (ts.foldl (fun s t => recordFailure cfg t s) cs).isOpen = true := by
  intro ts
  induction ts with
  | nil => intro cs h1 _; simp at h1
  | cons t rest ih =>
      intro cs _ h2
      simp only [List.foldl_cons]
      cases hr : rest with
      | nil =>
          simp only [List.foldl_nil]
          exact recordFailure_opens_of_threshold cfg t cs
            (by simp [hr, List.length_cons] at h2; omega)
      | cons t' rest' =>
          rw [← hr]
          refine ih (recordFailure cfg t cs) (by simp [hr]) ?_
          rw [recordFailure_failureCount]
          simp only [List.length_cons] at h2
          omega

/-- The blocking condition of the claim: the circuit is open and the
open-state timeout has not elapsed since the last recorded failure. -/
def circuitBlocked (cfg : Config) (now : Nat) (cs : CircuitState) : Prop :=
  cs.isOpen = true ∧ now - cs.lastFailureTime ≤ cfg.circuitBreakerTimeoutMs

/-- A blocked circuit makes `_isCircuitOpen` return true without mutating
the state. -/
theorem isCircuitOpenCheck_blocked (cfg : Config) (now : Nat) (cs : CircuitState)
    (h : circuitBlocked cfg now cs) : isCircuitOpenCheck cfg now cs = (true, cs) := by
  obtain ⟨h1, h2⟩ := h
  simp [isCircuitOpenCheck, h1, Nat.not_lt.mpr h2]

/-- How a provider `p` that is never contacted relates the states before
and after a piece of the dispatcher runs: `p`'s circuit state and
invocation counter are unchanged and no contact with `p` was added to
the trace. -/
def SkipRel (p : Nat) (a b : ServiceState) : Prop :=
  b.circuits p = a.circuits p ∧ b.invocations p = a.invocations p ∧
  ∀ id, (p, id) ∈ b.contactTrace → (p, id) ∈ a.contactTrace

theorem skipRel_refl (p : Nat) (a : ServiceState) : SkipRel p a a :=
  ⟨Eq.refl _, Eq.refl _, fun _ h => h⟩

theorem SkipRel.trans {p : Nat} {a b c : ServiceState}
    (h1 : SkipRel p a b) (h2 : SkipRel p b c) : SkipRel p a c :=
  ⟨h2.1.trans h1.1, h2.2.1.trans h1.2.1, fun id hm => h1.2.2 id (h2.2.2 id hm)⟩

theorem setStatus_circuits (st : ServiceState) (id : String) (v : EmailStatus) :
    (setStatus st id v).circuits = st.circuits := rfl

theorem setStatus_invocations (st : ServiceState) (id : String) (v : EmailStatus) :
    (setStatus st id v).invocations = st.invocations := rfl

theorem setStatus_contactTrace (st : ServiceState) (id : String) (v : EmailStatus) :
    (setStatus st id v).contactTrace = st.contactTrace := rfl

theorem updateCircuit_circuits (st : ServiceState) (q : Nat) (cs : CircuitState) :
    (updateCircuit st q cs).circuits = Function.update st.circuits q cs := rfl

theorem recordInvocations_circuits (st : ServiceState) (q k : Nat) (id : String) :
    (recordInvocations st q k id).circuits = st.circuits := rfl

theorem recordInvocations_invocations (st : ServiceState) (q k : Nat) (id : String) :
    (recordInvocations st q k id).invocations
      = Function.update st.invocations q (st.invocations q + k) := rfl

theorem recordInvocations_contactTrace (st : ServiceState) (q k : Nat) (id : String) :
    (recordInvocations st q k id).contactTrace
      = st.contactTrace ++ List.replicate k (q, id) := rfl

/-- `setStatus` does not touch the fields `SkipRel` tracks. -/
theorem SkipRel.setStatus {p : Nat} {a b : ServiceState} (h : SkipRel p a b)
    (id : String) (v : EmailStatus) : SkipRel p a (ResilientEmail.setStatus b id v) := h

/-- Updating another provider's circuit preserves `SkipRel`. -/
theorem SkipRel.updateCircuitNe {p : Nat} {a b : ServiceState} (h : SkipRel p a b)
    {q : Nat} (hq : q ≠ p) (cs : CircuitState) : SkipRel p a (updateCircuit b q cs) := by
  refine ⟨?_, h.2.1, h.2.2⟩
  rw [updateCircuit_circuits, Function.update_noteq (Ne.symm hq), h.1]

/-- Accounting invocations of another provider preserves `SkipRel`. -/
theorem SkipRel.recordInvocationsNe {p : Nat} {a b : ServiceState} (h : SkipRel p a b)
    {q : Nat} (hq : q ≠ p) (k : Nat) (id : String) :
    SkipRel p a (recordInvocations b q k id) := by
  refine ⟨h.1, ?_, ?_⟩
  · rw [recordInvocations_invocations, Function.update_noteq (Ne.symm hq), h.2.1]
  · intro id' hm
    rw [recordInvocations_contactTrace] at hm
    rcases List.mem_append.mp hm with hm | hm
    · exact h.2.2 id' hm
    · exact absurd (congrArg Prod.fst (List.eq_of_mem_replicate hm)) hq.symm

/-- The fallback loop of `_processSend` never touches a provider whose
circuit is blocked for the whole call: its circuit state is unchanged,
its invocation counter is unchanged, and no contact with it is added to
the trace. -/
theorem providerLoop_skips_blocked (cfg : Config) (env : Nat → Nat → Except String String)
    (n now : Nat) (d : EmailData) (p : Nat) :
    ∀ (rem i : Nat) (le : Option String) (st : ServiceState),
      circuitBlocked cfg now (st.circuits p) →
      SkipRel p st (providerLoop cfg env n now d i rem le st).2 := by
  intro rem
  induction rem with
  | zero =>
      intro i le st _
      exact ((skipRel_refl p st).setStatus d.emailId EmailStatus.failed).setStatus
        d.emailId EmailStatus.failed
  | succ r ih =>
      intro i le st hb
      -- whichever branch runs, the circuit state written back at the
      -- visited index leaves provider p's circuit untouched
      have hupd : Function.update st.circuits ((st.currentProviderIndex + i) % n)
          (isCircuitOpenCheck cfg now (st.circuits ((st.currentProviderIndex + i) % n))).2 p
          = st.circuits p := by
        by_cases hpi : (st.currentProviderIndex + i) % n = p
        · rw [hpi, isCircuitOpenCheck_blocked cfg now _ hb, Function.update_same]
        · exact Function.update_noteq (Ne.symm hpi) _ _
      have hstep : SkipRel p st (updateCircuit st ((st.currentProviderIndex + i) % n)
          (isCircuitOpenCheck cfg now (st.circuits ((st.currentProviderIndex + i) % n))).2) :=
        ⟨hupd, Eq.refl _, fun _ h => h⟩
      have hbStep : circuitBlocked cfg now
          ((updateCircuit st ((st.currentProviderIndex + i) % n)
            (isCircuitOpenCheck cfg now
              (st.circuits ((st.currentProviderIndex + i) % n))).2).circuits p) := by
        rw [updateCircuit_circuits, hupd]; exact hb
      simp only [providerLoop]
      split
      · -- skipped branch
        exact SkipRel.trans hstep (ih (i + 1) _ _ hbStep)
      · -- attempted branch: the visited provider cannot be p
        rename_i hcond
        have hpi : (st.currentProviderIndex + i) % n ≠ p := by
          intro hq
          apply hcond
          rw [hq, isCircuitOpenCheck_blocked cfg now _ hb]
        split
        · -- the attempt succeeded
          exact ((hstep.recordInvocationsNe hpi _ d.emailId).updateCircuitNe hpi
            _).setStatus d.emailId EmailStatus.sent
        · -- the attempt failed: recurse
          refine SkipRel.trans
            ((hstep.recordInvocationsNe hpi _ d.emailId).updateCircuitNe hpi _)
            (ih (i + 1) _ _ ?_)
          simp only [updateCircuit_circuits, recordInvocations_circuits,
            Function.update_noteq (Ne.symm hpi)]
          exact hb

/-! ### Claim C3: an open circuit blocks the provider without any attempt -/

/-- C3: after `circuitBreakerThreshold` consecutive recorded failures
(starting from a fresh circuit) a provider's circuit is open, and while
it is open and `circuitBreakerTimeoutMs` has not elapsed since the last
recorded failure, `_processSend` skips that provider in the fallback
loop without invoking its send function: the provider's invocation
counter is unchanged and no contact with it is added to the trace. -/
theorem circuit_opens_and_blocks_without_attempt
    (cfg : Config) (env : Nat → Nat → Except String String) (n now : Nat) (d : EmailData)
    (ts : List Nat) (st : ServiceState) (p : Nat) (_hp : p < n)
    (hth : 1 ≤ cfg.circuitBreakerThreshold)
    (hlen : ts.length = cfg.circuitBreakerThreshold)
    (hcs : st.circuits p = ts.foldl (fun s t => recordFailure cfg t s) freshCircuit)
    (hto : now - (st.circuits p).lastFailureTime ≤ cfg.circuitBreakerTimeoutMs) :
    (st.circuits p).isOpen = true ∧
    (processSendCore cfg env n now d st).2.invocations p = st.invocations p ∧
    ∀ id, (p, id) ∈ (processSendCore cfg env n now d st).2.contactTrace →
      (p, id) ∈ st.contactTrace := by
  have hopen : (st.circuits p).isOpen = true := by
    rw [hcs]
    refine foldl_recordFailure_opens cfg ts freshCircuit (by omega) ?_
    simp only [freshCircuit]
    omega
  have h := providerLoop_skips_blocked cfg env n now d p n 0 none st ⟨hopen, hto⟩
  exact ⟨hopen, h.2.1, h.2.2⟩

/-- Configuration used by the circuit breaker witnesses: threshold 2,
open-state timeout 5000 ms, other knobs at their defaults. -/
def cfgCB : Config :=
  { maxRetries := 3, initialRetryDelay := 100, idempotencyWindowMs := 60000
    rateLimitWindowMs := 1000, maxRequestsPerWindow := 10
    circuitBreakerThreshold := 2, circuitBreakerTimeoutMs := 5000
    circuitBreakerHalfOpenAttempts := 1 }

/-- The circuit state of a provider that recorded two consecutive
failures, at times 10 and 20, under `cfgCB`. -/
def twiceFailedCircuit : CircuitState :=
  ([10, 20] : List Nat).foldl (fun s t => recordFailure cfgCB t s) freshCircuit

/-- A fresh service whose single provider recorded two consecutive
failures, at times 10 and 20. -/
def stCB : ServiceState :=
  { initialState with circuits := Function.update initialState.circuits 0 twiceFailedCircuit }

/-- Witness for `circuit_opens_and_blocks_without_attempt`: with
threshold 2 and failures recorded at times 10 and 20, provider 0 is open
at time 30 and `_processSend` neither invokes it nor adds a contact. -/
theorem circuit_opens_and_blocks_witness :
    (stCB.circuits 0).isOpen = true ∧
    (processSendCore cfgCB okEnv 1 30 taskX stCB).2.invocations 0 = stCB.invocations 0 ∧
    (((0 : Nat), "X") ∈ (processSendCore cfgCB okEnv 1 30 taskX stCB).2.contactTrace →
      ((0 : Nat), "X") ∈ stCB.contactTrace) := by
  have h := circuit_opens_and_blocks_without_attempt cfgCB okEnv 1 30 taskX
    [10, 20] stCB 0 (by decide) (by decide) (by decide) (by decide) (by decide)
  exact ⟨h.1, h.2.1, h.2.2 "X"⟩

/-! ### Claim C4: half-open transition, probe success and probe failure -/

/-- C4: once an open circuit's timeout has elapsed, the blocking check
flips the state to half-open (`isOpen := false`, failure count
preserved) and admits the caller's attempt as the single probe of that
window; `_recordSuccess` on the probe fully closes the circuit with the
failure count reset to 0; `_recordFailure` on the probe reopens the
circuit with the failure timestamp restarted at the probe's failure
time, so the next check within the new timeout window blocks again. -/
theorem half_open_probe_behaviour (cfg : Config) (cs : CircuitState) (now tFail now2 : Nat)
    (hopen : cs.isOpen = true)
    (helapsed : cfg.circuitBreakerTimeoutMs < now - cs.lastFailureTime)
    (hcount : cfg.circuitBreakerThreshold ≤ cs.failureCount)
    (hagain : now2 - tFail ≤ cfg.circuitBreakerTimeoutMs) :
    isCircuitOpenCheck cfg now cs
      = (false, { cs with isOpen := false, halfOpenAttempts := 0 }) ∧
    (isCircuitOpenCheck cfg now cs).2.failureCount = cs.failureCount ∧
    (recordSuccess (isCircuitOpenCheck cfg now cs).2).isOpen = false ∧
    (recordSuccess (isCircuitOpenCheck cfg now cs).2).failureCount = 0 ∧
    (recordFailure cfg tFail (isCircuitOpenCheck cfg now cs).2).isOpen = true ∧
    (recordFailure cfg tFail (isCircuitOpenCheck cfg now cs).2).lastFailureTime = tFail ∧
    (isCircuitOpenCheck cfg now2
        (recordFailure cfg tFail (isCircuitOpenCheck cfg now cs).2)).1 = true := by
  have h1 : isCircuitOpenCheck cfg now cs
      = (false, { cs with isOpen := false, halfOpenAttempts := 0 }) := by
    simp [isCircuitOpenCheck, hopen, helapsed]
  refine ⟨h1, by rw [h1], by rw [h1]; rfl, by rw [h1]; rfl, ?_, ?_, ?_⟩
  · rw [h1]
    simp [recordFailure, Nat.le_succ_of_le hcount]
  · rw [h1]
    simp [recordFailure, Nat.le_succ_of_le hcount]
  · rw [h1]
    simp [recordFailure, isCircuitOpenCheck, Nat.le_succ_of_le hcount,
      Nat.not_lt.mpr hagain]

/-- A circuit that has been open since time 1000 with 2 consecutive
failures (the threshold of `cfgCB`). -/
def openSince1000 : CircuitState :=
  { isOpen := true, lastFailureTime := 1000, failureCount := 2, halfOpenAttempts := 0 }

/-- Witness for `half_open_probe_behaviour`: circuit opened at time 1000
with 2 failures (threshold 2, timeout 5000), checked at time 7000, probe
failing at 7000, re-checked at 8000. -/
theorem half_open_probe_witness :
    isCircuitOpenCheck cfgCB 7000 openSince1000
      = (false, { openSince1000 with isOpen := false, halfOpenAttempts := 0 }) ∧
    (isCircuitOpenCheck cfgCB 7000 openSince1000).2.failureCount = openSince1000.failureCount ∧
    (recordSuccess (isCircuitOpenCheck cfgCB 7000 openSince1000).2).isOpen = false ∧
    (recordSuccess (isCircuitOpenCheck cfgCB 7000 openSince1000).2).failureCount = 0 ∧
    (recordFailure cfgCB 7000 (isCircuitOpenCheck cfgCB 7000 openSince1000).2).isOpen = true ∧
    (recordFailure cfgCB 7000 (isCircuitOpenCheck cfgCB 7000 openSince1000).2).lastFailureTime
      = 7000 ∧
    (isCircuitOpenCheck cfgCB 8000
        (recordFailure cfgCB 7000 (isCircuitOpenCheck cfgCB 7000 openSince1000).2)).1 = true :=
  half_open_probe_behaviour cfgCB openSince1000 7000 7000 8000
    (by decide) (by decide) (by decide) (by decide)

/-! ### Frame lemmas: which state fields each phase can touch -/

/-- The queue-related fields of the state: admission window, pending
queue, re-entrancy flag, next fresh promise id, settlements. -/
def queueView (st : ServiceState) :
    List Nat × List QueueEntry × Bool × Nat × List (Nat × Except String String) :=
  (st.requestTimestamps, st.emailQueue, st.isProcessingQueue, st.nextPromiseId, st.settlements)

/-- The provider fallback loop touches none of the queue-related
fields. -/
theorem providerLoop_queueView (cfg : Config) (env : Nat → Nat → Except String String)
    (n now : Nat) (d : EmailData) :
    ∀ (rem i : Nat) (le : Option String) (st : ServiceState),
      queueView (providerLoop cfg env n now d i rem le st).2 = queueView st := by
  intro rem
  induction rem with
  | zero => intro i le st; rfl
  | succ r ih =>
      intro i le st
      simp only [providerLoop]
      split
      · exact (ih (i + 1) _ _).trans (Eq.refl _)
      · split
        · rfl
        · exact (ih (i + 1) _ _).trans (Eq.refl _)

theorem processSendCore_requestTimestamps (cfg : Config)
    (env : Nat → Nat → Except String String) (n now : Nat) (d : EmailData)
    (st : ServiceState) :
    (processSendCore cfg env n now d st).2.requestTimestamps = st.requestTimestamps :=
  congrArg (fun v => v.1) (providerLoop_queueView cfg env n now d n 0 none st)

theorem processSendCore_emailQueue (cfg : Config)
    (env : Nat → Nat → Except String String) (n now : Nat) (d : EmailData)
    (st : ServiceState) :
    (processSendCore cfg env n now d st).2.emailQueue = st.emailQueue :=
  congrArg (fun v => v.2.1) (providerLoop_queueView cfg env n now d n 0 none st)

theorem processSendCore_isProcessingQueue (cfg : Config)
    (env : Nat → Nat → Except String String) (n now : Nat) (d : EmailData)
    (st : ServiceState) :
    (processSendCore cfg env n now d st).2.isProcessingQueue = st.isProcessingQueue :=
  congrArg (fun v => v.2.2.1) (providerLoop_queueView cfg env n now d n 0 none st)

theorem processSendCore_nextPromiseId (cfg : Config)
    (env : Nat → Nat → Except String String) (n now : Nat) (d : EmailData)
    (st : ServiceState) :
    (processSendCore cfg env n now d st).2.nextPromiseId = st.nextPromiseId :=
  congrArg (fun v => v.2.2.2.1) (providerLoop_queueView cfg env n now d n 0 none st)

theorem processSendCore_settlements (cfg : Config)
    (env : Nat → Nat → Except String String) (n now : Nat) (d : EmailData)
    (st : ServiceState) :
    (processSendCore cfg env n now d st).2.settlements = st.settlements :=
  congrArg (fun v => v.2.2.2.2) (providerLoop_queueView cfg env n now d n 0 none st)

/-! ### The rate limiter: characterization and window bound -/

/-- `_isRateLimited` as its prune / deny-or-record decomposition. -/
theorem isRateLimited_eq (cfg : Config) (now : Nat) (ts : List Nat) :
    isRateLimited cfg now ts =
      if cfg.maxRequestsPerWindow ≤ (pruneWindow cfg.rateLimitWindowMs now ts).length
      then (true, pruneWindow cfg.rateLimitWindowMs now ts)
      else (false, pruneWindow cfg.rateLimitWindowMs now ts ++ [now]) := rfl

/-- Pruning is idempotent: pruning an already pruned window changes
nothing. -/
theorem pruneWindow_idem (w now : Nat) (ts : List Nat) :
    pruneWindow w now (pruneWindow w now ts) = pruneWindow w now ts := by
  unfold pruneWindow
  exact List.filter_eq_self.mpr (fun _ ha => (List.mem_filter.mp ha).2)

/-- One admission check keeps the window within the budget. -/
theorem isRateLimited_length (cfg : Config) (now : Nat) (ts : List Nat)
    (h : ts.length ≤ cfg.maxRequestsPerWindow) :
    (isRateLimited cfg now ts).2.length ≤ cfg.maxRequestsPerWindow := by
  rw [isRateLimited_eq]
  split
  · exact le_trans (List.length_filter_le _ _) h
  · rename_i hc
    simp only [List.length_append, List.length_cons, List.length_nil]
    omega

/-- A denied check leaves a window that is still full: re-checking at
the same instant is denied again, with the window unchanged. -/
theorem isRateLimited_denied_recheck (cfg : Config) (now : Nat) (ts : List Nat)
    (h : (isRateLimited cfg now ts).1 = true) :
    isRateLimited cfg now ((isRateLimited cfg now ts).2)
      = (true, (isRateLimited cfg now ts).2) := by
  have hc : cfg.maxRequestsPerWindow ≤ (pruneWindow cfg.rateLimitWindowMs now ts).length := by
    by_contra hc
    rw [isRateLimited_eq, if_neg hc] at h
    simp at h
  have hsnd : (isRateLimited cfg now ts).2 = pruneWindow cfg.rateLimitWindowMs now ts := by
    rw [isRateLimited_eq, if_pos hc]
  rw [hsnd, isRateLimited_eq, pruneWindow_idem, if_pos hc]

/-! ### Status-map invariants -/

/-- Everything the service ever wrote into the status map or the status
log is one of `processing`, `sent`, `failed` (never `pending`). -/
def statusesOk (st : ServiceState) : Prop :=
  (∀ e ∈ st.emailStatuses, e.2 ≠ EmailStatus.pending) ∧
  (∀ e ∈ st.statusLog, e.2 ≠ EmailStatus.pending)

/-- Membership after a `Map.set`: either an old binding or the new one. -/
theorem mem_mapSet (m : List (String × EmailStatus)) (k : String) (v : EmailStatus)
    (e : String × EmailStatus) (h : e ∈ mapSet m k v) : e ∈ m ∨ e = (k, v) := by
  induction m with
  | nil =>
      simp only [mapSet, List.mem_singleton] at h
      exact Or.inr h
  | cons kv rest ih =>
      rw [mapSet] at h
      split at h
      · rcases List.mem_cons.mp h with h | h
        · exact Or.inr h
        · exact Or.inl (List.mem_cons_of_mem _ h)
      · rcases List.mem_cons.mp h with h | h
        · exact Or.inl (h ▸ List.mem_cons_self _ _)
        · rcases ih h with h | h
          · exact Or.inl (List.mem_cons_of_mem _ h)
          · exact Or.inr h

theorem statusesOk_setStatus {st : ServiceState} (h : statusesOk st) {v : EmailStatus}
    (hv : v ≠ EmailStatus.pending) (id : String) : statusesOk (setStatus st id v) := by
  constructor
  · intro e he
    rcases mem_mapSet _ _ _ _ he with he | he
    · exact h.1 e he
    · rw [he]; exact hv
  · intro e he
    rcases List.mem_append.mp he with he | he
    · exact h.2 e he
    · rw [List.mem_singleton.mp he]; exact hv

/-- The provider fallback loop only writes `sent` and `failed`. -/
theorem statusesOk_providerLoop (cfg : Config) (env : Nat → Nat → Except String String)
    (n now : Nat) (d : EmailData) :
    ∀ (rem i : Nat) (le : Option String) (st : ServiceState),
      statusesOk st → statusesOk (providerLoop cfg env n now d i rem le st).2 := by
  intro rem
  induction rem with
  | zero =>
      intro i le st h
      exact statusesOk_setStatus (statusesOk_setStatus h (by decide) d.emailId)
        (by decide) d.emailId
  | succ r ih =>
      intro i le st h
      simp only [providerLoop]
      split
      · exact ih (i + 1) _ _ h
      · split
        · exact statusesOk_setStatus h (by decide) d.emailId
        · exact ih (i + 1) _ _ h

/-- The reachable-state invariant: bounded admission window and no
`pending` status anywhere. -/
def ServiceInv (cfg : Config) (st : ServiceState) : Prop :=
  st.requestTimestamps.length ≤ cfg.maxRequestsPerWindow ∧ statusesOk st

theorem processSendCore_inv (cfg : Config) (env : Nat → Nat → Except String String)
    (n now : Nat) (d : EmailData) (st : ServiceState) (h : ServiceInv cfg st) :
    ServiceInv cfg (processSendCore cfg env n now d st).2 :=
  ⟨by rw [processSendCore_requestTimestamps]; exact h.1,
    statusesOk_providerLoop cfg env n now d n 0 none st h.2⟩

theorem processQueueLoop_inv (cfg : Config) (env : Nat → Nat → Except String String)
    (n now : Nat) :
    ∀ (fuel : Nat) (st : ServiceState), ServiceInv cfg st →
      ServiceInv cfg (processQueueLoop cfg env n now fuel st) := by
  intro fuel
  induction fuel with
  | zero => intro st h; exact h
  | succ f ih =>
      intro st h
      simp only [processQueueLoop]
      split
      · exact h
      · rename_i entry rest hq
        split
        · exact ⟨isRateLimited_length cfg now _ h.1, h.2⟩
        · refine ih _ ?_
          have h2 : ServiceInv cfg (setQueue (setWindow st
              (isRateLimited cfg now st.requestTimestamps).2) rest) :=
            ⟨isRateLimited_length cfg now _ h.1, h.2⟩
          have h3 := processSendCore_inv cfg env n now entry.emailData _ h2
          exact ⟨h3.1, h3.2⟩

theorem processQueue_inv (cfg : Config) (env : Nat → Nat → Except String String)
    (n now : Nat) (st : ServiceState) (h : ServiceInv cfg st) :
    ServiceInv cfg (processQueue cfg env n now st) := by
  unfold processQueue
  split
  · exact h
  · split
    · exact h
    · have h2 := processQueueLoop_inv cfg env n now
        (setProcessingFlag st true).emailQueue.length (setProcessingFlag st true) ⟨h.1, h.2⟩
      exact ⟨h2.1, h2.2⟩

theorem sendEmail_inv (cfg : Config) (env : Nat → Nat → Except String String)
    (n now : Nat) (d : EmailData) (st : ServiceState) (h : ServiceInv cfg st) :
    ServiceInv cfg (sendEmail cfg env n now d st).2 := by
  simp only [sendEmail]
  split
  · exact h
  · split
    · exact h
    · split
      · refine processQueue_inv cfg env n now _ ?_
        exact ⟨isRateLimited_length cfg now _ h.1, h.2⟩
      · refine processQueue_inv cfg env n now _ ?_
        refine processSendCore_inv cfg env n now d _ ?_
        refine ⟨isRateLimited_length cfg now _ h.1, ?_⟩
        exact statusesOk_setStatus h.2 (by decide) d.emailId

theorem step_inv (cfg : Config) (env : Nat → Nat → Except String String)
    (n : Nat) (st : ServiceState) (ev : Event) (h : ServiceInv cfg st) :
    ServiceInv cfg (step cfg env n st ev) := by
  cases ev with
  | send now d => exact sendEmail_inv cfg env n now d st h
  | drain now => exact processQueue_inv cfg env n now st h

theorem foldl_step_inv (cfg : Config) (env : Nat → Nat → Except String String) (n : Nat) :
    ∀ (events : List Event) (st : ServiceState), ServiceInv cfg st →
      ServiceInv cfg (events.foldl (step cfg env n) st) := by
  intro events
  induction events with
  | nil => intro st h; exact h
  | cons ev rest ih => intro st h; exact ih _ (step_inv cfg env n st ev h)

theorem initialState_inv (cfg : Config) : ServiceInv cfg initialState := by
  refine ⟨by simp [initialState], ?_, ?_⟩
  · intro e he; simp [initialState] at he
  · intro e he; simp [initialState] at he

theorem run_inv (cfg : Config) (env : Nat → Nat → Except String String)
    (n : Nat) (events : List Event) : ServiceInv cfg (run cfg env n events) :=
  foldl_step_inv cfg env n events initialState (initialState_inv cfg)

theorem setWindow_emailQueue (st : ServiceState) (ts : List Nat) :
    (setWindow st ts).emailQueue = st.emailQueue := rfl

theorem setWindow_settlements (st : ServiceState) (ts : List Nat) :
    (setWindow st ts).settlements = st.settlements := rfl

theorem setWindow_emailStatuses (st : ServiceState) (ts : List Nat) :
    (setWindow st ts).emailStatuses = st.emailStatuses := rfl

theorem setWindow_statusLog (st : ServiceState) (ts : List Nat) :
    (setWindow st ts).statusLog = st.statusLog := rfl

theorem setWindow_sentEmailIds (st : ServiceState) (ts : List Nat) :
    (setWindow st ts).sentEmailIds = st.sentEmailIds := rfl

theorem setWindow_contactTrace (st : ServiceState) (ts : List Nat) :
    (setWindow st ts).contactTrace = st.contactTrace := rfl

theorem setQueue_settlements (st : ServiceState) (q : List QueueEntry) :
    (setQueue st q).settlements = st.settlements := rfl

theorem setQueue_emailQueue (st : ServiceState) (q : List QueueEntry) :
    (setQueue st q).emailQueue = q := rfl

theorem setProcessingFlag_emailQueue (st : ServiceState) (b : Bool) :
    (setProcessingFlag st b).emailQueue = st.emailQueue := rfl

theorem setProcessingFlag_settlements (st : ServiceState) (b : Bool) :
    (setProcessingFlag st b).settlements = st.settlements := rfl

theorem settleEntry_emailQueue (st : ServiceState) (pid : Nat) (r : Except String String) :
    (settleEntry st pid r).emailQueue = st.emailQueue := rfl

theorem settleEntry_settlements (st : ServiceState) (pid : Nat) (r : Except String String) :
    (settleEntry st pid r).settlements = st.settlements ++ [(pid, r)] := rfl

theorem enqueueEntry_emailQueue (st : ServiceState) (d : EmailData) :
    (enqueueEntry st d).emailQueue = st.emailQueue ++ [⟨d, st.nextPromiseId⟩] := rfl

theorem enqueueEntry_settlements (st : ServiceState) (d : EmailData) :
    (enqueueEntry st d).settlements = st.settlements := rfl

/-! ### Claim C7: the admission check -/

/-- C7: every admission check first removes the entries older than
`rateLimitWindowMs` from the shared window, then denies — recording
nothing — exactly when the pruned window already holds
`maxRequestsPerWindow` or more entries, and otherwise records `now` and
admits; consequently one check keeps the window within the budget, and
the window of every reachable service state holds at most
`maxRequestsPerWindow` timestamps. -/
theorem rate_admission_prune_deny_record (cfg : Config)
    (env : Nat → Nat → Except String String) (n now : Nat) (ts : List Nat)
    (events : List Event) :
    ((isRateLimited cfg now ts).1 = true ↔
      cfg.maxRequestsPerWindow ≤ (pruneWindow cfg.rateLimitWindowMs now ts).length) ∧
    ((isRateLimited cfg now ts).1 = true →
      (isRateLimited cfg now ts).2 = pruneWindow cfg.rateLimitWindowMs now ts) ∧
    ((isRateLimited cfg now ts).1 = false →
      (isRateLimited cfg now ts).2 = pruneWindow cfg.rateLimitWindowMs now ts ++ [now]) ∧
    (ts.length ≤ cfg.maxRequestsPerWindow →
      (isRateLimited cfg now ts).2.length ≤ cfg.maxRequestsPerWindow) ∧
    (run cfg env n events).requestTimestamps.length ≤ cfg.maxRequestsPerWindow := by
  refine ⟨?_, ?_, ?_, isRateLimited_length cfg now ts, (run_inv cfg env n events).1⟩
  · rw [isRateLimited_eq]
    split
    · rename_i hc; simpa using hc
    · rename_i hc; simpa using hc
  · intro h
    rw [isRateLimited_eq] at h ⊢
    split at h
    · rename_i hc; rw [if_pos hc]
    · simp at h
  · intro h
    rw [isRateLimited_eq] at h ⊢
    split at h
    · simp at h
    · rename_i hc; rw [if_neg hc]

/-- Witness for `rate_admission_prune_deny_record`: with a budget of 1
per 1000 ms, a check at time 5 against the window `[0, 3]` is denied and
records nothing, a check against the empty window records time 5, and
the window of the concrete four-event run stays within the budget. -/
theorem rate_admission_witness :
    (isRateLimited demoConfig 5 [0, 3]).1 = true ∧
    (isRateLimited demoConfig 5 [0, 3]).2 = [0, 3] ∧
    (isRateLimited demoConfig 5 ([] : List Nat)).2 = [5] ∧
    (run demoConfig okEnv 1 duplicateEvents).requestTimestamps.length ≤ 1 := by
  have h1 := rate_admission_prune_deny_record demoConfig okEnv 1 5 [0, 3] duplicateEvents
  have h2 := rate_admission_prune_deny_record demoConfig okEnv 1 5 [] duplicateEvents
  have hden : (isRateLimited demoConfig 5 [0, 3]).1 = true := h1.1.mpr (by decide)
  refine ⟨hden, ?_, ?_, h1.2.2.2.2⟩
  · rw [h1.2.1 hden]; decide
  · rw [h2.2.2.1 (by decide)]; decide

/-! ### The rate-limited path of `sendEmail` -/

/-- A drain pass whose very first admission check is denied only prunes
the window and stops. -/
theorem processQueueLoop_denied (cfg : Config) (env : Nat → Nat → Except String String)
    (n now : Nat) (fuel : Nat) (st : ServiceState)
    (hq : st.emailQueue ≠ [])
    (hrl : (isRateLimited cfg now st.requestTimestamps).1 = true) :
    processQueueLoop cfg env n now (fuel + 1) st
      = setWindow st (isRateLimited cfg now st.requestTimestamps).2 := by
  simp only [processQueueLoop]
  split
  · rename_i hq2; exact absurd hq2 hq
  · rw [if_pos hrl]

/-- The full effect of a valid, non-duplicate, rate-limited `sendEmail`:
the caller gets the fresh promise back, the submission is appended to
the tail of the pending queue, and nothing else observable happens — in
particular no settlement, no status write, no ledger entry and no
provider contact (the drain triggered inside the queued branch is denied
by the same full window and stops at once). -/
theorem sendEmail_queued_effects (cfg : Config) (env : Nat → Nat → Except String String)
    (n now : Nat) (d : EmailData) (st : ServiceState)
    (hv : ¬(d.emailId = "" ∨ d.recipient = "" ∨ d.subject = "" ∨ d.body = ""))
    (hdup : st.sentEmailIds.contains d.emailId = false)
    (hrl : (isRateLimited cfg now st.requestTimestamps).1 = true) :
    (sendEmail cfg env n now d st).1 = SendOutcome.queued st.nextPromiseId ∧
    (sendEmail cfg env n now d st).2.emailQueue
      = st.emailQueue ++ [⟨d, st.nextPromiseId⟩] ∧
    (sendEmail cfg env n now d st).2.settlements = st.settlements ∧
    (sendEmail cfg env n now d st).2.emailStatuses = st.emailStatuses ∧
    (sendEmail cfg env n now d st).2.statusLog = st.statusLog ∧
    (sendEmail cfg env n now d st).2.sentEmailIds = st.sentEmailIds ∧
    (sendEmail cfg env n now d st).2.contactTrace = st.contactTrace := by
  have hq2 : (enqueueEntry (setWindow st (isRateLimited cfg now st.requestTimestamps).2)
      d).emailQueue = st.emailQueue ++ [⟨d, st.nextPromiseId⟩] := rfl
  simp only [sendEmail]
  rw [if_neg hv, if_neg (by rw [hdup]; exact Bool.false_ne_true), if_pos hrl]
  by_cases hflag : (enqueueEntry (setWindow st
      (isRateLimited cfg now st.requestTimestamps).2) d).isProcessingQueue = true
  · have hpq : processQueue cfg env n now
        (enqueueEntry (setWindow st (isRateLimited cfg now st.requestTimestamps).2) d)
        = enqueueEntry (setWindow st (isRateLimited cfg now st.requestTimestamps).2) d := by
      simp only [processQueue]
      rw [if_pos hflag]
    rw [hpq]
    exact ⟨rfl, hq2, rfl, rfl, rfl, rfl, rfl⟩
  · have hrl2 : (isRateLimited cfg now (setProcessingFlag
        (enqueueEntry (setWindow st (isRateLimited cfg now st.requestTimestamps).2) d)
        true).requestTimestamps).1 = true := by
      rw [show (setProcessingFlag (enqueueEntry (setWindow st
          (isRateLimited cfg now st.requestTimestamps).2) d) true).requestTimestamps
          = (isRateLimited cfg now st.requestTimestamps).2 from rfl]
      rw [isRateLimited_denied_recheck cfg now _ hrl]
    have hloop : processQueueLoop cfg env n now
        (setProcessingFlag (enqueueEntry (setWindow st
          (isRateLimited cfg now st.requestTimestamps).2) d) true).emailQueue.length
        (setProcessingFlag (enqueueEntry (setWindow st
          (isRateLimited cfg now st.requestTimestamps).2) d) true)
        = setWindow (setProcessingFlag (enqueueEntry (setWindow st
            (isRateLimited cfg now st.requestTimestamps).2) d) true)
          (isRateLimited cfg now (setProcessingFlag (enqueueEntry (setWindow st
            (isRateLimited cfg now st.requestTimestamps).2) d) true).requestTimestamps).2 := by
      rw [show (setProcessingFlag (enqueueEntry (setWindow st
          (isRateLimited cfg now st.requestTimestamps).2) d) true).emailQueue.length
          = st.emailQueue.length + 1 from by rw [show (setProcessingFlag (enqueueEntry
            (setWindow st (isRateLimited cfg now st.requestTimestamps).2) d)
            true).emailQueue = st.emailQueue ++ [⟨d, st.nextPromiseId⟩] from hq2]; simp]
      refine processQueueLoop_denied cfg env n now _ _ ?_ hrl2
      rw [show (setProcessingFlag (enqueueEntry (setWindow st
          (isRateLimited cfg now st.requestTimestamps).2) d) true).emailQueue
          = st.emailQueue ++ [⟨d, st.nextPromiseId⟩] from hq2]
      simp
    have hpq : processQueue cfg env n now
        (enqueueEntry (setWindow st (isRateLimited cfg now st.requestTimestamps).2) d)
        = setProcessingFlag (setWindow (setProcessingFlag (enqueueEntry (setWindow st
            (isRateLimited cfg now st.requestTimestamps).2) d) true)
            (isRateLimited cfg now (setProcessingFlag (enqueueEntry (setWindow st
              (isRateLimited cfg now st.requestTimestamps).2) d)
              true).requestTimestamps).2) false := by
      simp only [processQueue]
      rw [if_neg hflag, if_neg (by rw [show (enqueueEntry (setWindow st
          (isRateLimited cfg now st.requestTimestamps).2) d).emailQueue
          = st.emailQueue ++ [⟨d, st.nextPromiseId⟩] from hq2]; simp), hloop]
    rw [hpq]
    exact ⟨rfl, hq2, rfl, rfl, rfl, rfl, rfl⟩

/-! ### Claim C10: no `pending` status is ever assigned -/

/-- C10: in every reachable service state, every tracked id's status is
`processing`, `sent` or `failed` — the status `pending` is never
assigned, neither in the status map nor in any write recorded in the
status log — and a valid non-duplicate submission that is denied
admission is queued without touching the status map, so its status query
answers as before (in particular `undefined` for a fresh id). -/
theorem no_pending_status_and_untracked_while_queued (cfg : Config)
    (env : Nat → Nat → Except String String) (n : Nat) (events : List Event)
    (now : Nat) (d : EmailData) :
    (∀ id s, (id, s) ∈ (run cfg env n events).emailStatuses → s ≠ EmailStatus.pending) ∧
    (∀ e ∈ (run cfg env n events).statusLog, e.2 ≠ EmailStatus.pending) ∧
    (¬(d.emailId = "" ∨ d.recipient = "" ∨ d.subject = "" ∨ d.body = "") →
      (run cfg env n events).sentEmailIds.contains d.emailId = false →
      (isRateLimited cfg now (run cfg env n events).requestTimestamps).1 = true →
      (sendEmail cfg env n now d (run cfg env n events)).1
          = SendOutcome.queued (run cfg env n events).nextPromiseId ∧
      getEmailStatus (sendEmail cfg env n now d (run cfg env n events)).2 d.emailId
        = getEmailStatus (run cfg env n events) d.emailId) := by
  refine ⟨fun id s hm => (run_inv cfg env n events).2.1 (id, s) hm,
    (run_inv cfg env n events).2.2, fun hv hdup hrl => ?_⟩
  have h := sendEmail_queued_effects cfg env n now d (run cfg env n events) hv hdup hrl
  refine ⟨h.1, ?_⟩
  unfold getEmailStatus
  rw [h.2.2.2.1]

/-- Witness for `no_pending_status_and_untracked_while_queued`: after
sending id `"A"` at time 0 (admitted, budget 1 per window), submitting
id `"X"` at time 1 is denied admission and queued; `"X"` has no status
while it waits, and no `pending` status exists anywhere. -/
theorem no_pending_witness :
    ((("A" : String), EmailStatus.pending)
        ∉ (run demoConfig okEnv 1 [Event.send 0 taskA]).emailStatuses) ∧
    (sendEmail demoConfig okEnv 1 1 taskX (run demoConfig okEnv 1 [Event.send 0 taskA])).1
      = SendOutcome.queued (run demoConfig okEnv 1 [Event.send 0 taskA]).nextPromiseId ∧
    getEmailStatus (sendEmail demoConfig okEnv 1 1 taskX
        (run demoConfig okEnv 1 [Event.send 0 taskA])).2 taskX.emailId = none := by
  have h := no_pending_status_and_untracked_while_queued demoConfig okEnv 1
    [Event.send 0 taskA] 1 taskX
  have h3 := h.2.2 (by decide) (by decide) (by decide)
  refine ⟨fun hm => h.1 "A" EmailStatus.pending hm rfl, h3.1, ?_⟩
  rw [h3.2]
  decide

/-! ### Claim C8: deferral, FIFO draining, single settlement, single pass -/

/-- Lift the FIFO/settlement bookkeeping of a drain continuation over one
processed head entry. -/
theorem fifo_transfer (cfg : Config) (env : Nat → Nat → Except String String)
    (n now f : Nat) (st stB : ServiceState) (entry : QueueEntry) (rest : List QueueEntry)
    (hstq : st.emailQueue = entry :: rest)
    (hqB : stB.emailQueue = rest)
    (hsB : stB.settlements.map Prod.fst = st.settlements.map Prod.fst ++ [entry.promiseId])
    (hex : ∃ k, k ≤ stB.emailQueue.length ∧
        (processQueueLoop cfg env n now f stB).emailQueue = stB.emailQueue.drop k ∧
        (processQueueLoop cfg env n now f stB).settlements.map Prod.fst
          = stB.settlements.map Prod.fst ++ (stB.emailQueue.take k).map QueueEntry.promiseId) :
    ∃ k, k ≤ st.emailQueue.length ∧
      (processQueueLoop cfg env n now f stB).emailQueue = st.emailQueue.drop k ∧
      (processQueueLoop cfg env n now f stB).settlements.map Prod.fst
        = st.settlements.map Prod.fst ++ (st.emailQueue.take k).map QueueEntry.promiseId := by
  obtain ⟨k, hk, h1, h2⟩ := hex
  rw [hqB] at hk h1 h2
  refine ⟨k + 1, ?_, ?_, ?_⟩
  · rw [hstq]
    simp only [List.length_cons]
    omega
  · rw [hstq, List.drop_succ_cons]
    exact h1
  · rw [hstq, List.take_succ_cons, h2, hsB]
    simp [List.append_assoc]

/-- The drain loop removes a prefix of the queue from the head, in FIFO
order, and settles exactly the promises of that prefix, in order, each
exactly once. -/
theorem processQueueLoop_fifo (cfg : Config) (env : Nat → Nat → Except String String)
    (n now : Nat) :
    ∀ (fuel : Nat) (st : ServiceState), ∃ k, k ≤ st.emailQueue.length ∧
      (processQueueLoop cfg env n now fuel st).emailQueue = st.emailQueue.drop k ∧
      (processQueueLoop cfg env n now fuel st).settlements.map Prod.fst
        = st.settlements.map Prod.fst ++ (st.emailQueue.take k).map QueueEntry.promiseId := by
  intro fuel
  induction fuel with
  | zero =>
      intro st
      exact ⟨0, Nat.zero_le _, by simp [processQueueLoop], by simp [processQueueLoop]⟩
  | succ f ih =>
      intro st
      simp only [processQueueLoop]
      split
      · exact ⟨0, Nat.zero_le _, by simp, by simp⟩
      · rename_i entry rest hq
        split
        · exact ⟨0, Nat.zero_le _, by simp [setWindow_emailQueue],
            by simp [setWindow_settlements, setWindow_emailQueue]⟩
        · refine fifo_transfer cfg env n now f st _ entry rest hq ?_ ?_ (ih _)
          · rw [settleEntry_emailQueue, processSendCore_emailQueue, setQueue_emailQueue]
          · rw [settleEntry_settlements, processSendCore_settlements, setQueue_settlements,
              setWindow_settlements]
            simp

/-- `_processQueue` when no pass is active: drains a FIFO prefix and
settles its promises in order, exactly once each. -/
theorem processQueue_fifo (cfg : Config) (env : Nat → Nat → Except String String)
    (n now : Nat) (st : ServiceState) (h : st.isProcessingQueue = false) :
    ∃ k, k ≤ st.emailQueue.length ∧
      (processQueue cfg env n now st).emailQueue = st.emailQueue.drop k ∧
      (processQueue cfg env n now st).settlements.map Prod.fst
        = st.settlements.map Prod.fst ++ (st.emailQueue.take k).map QueueEntry.promiseId := by
  simp only [processQueue]
  rw [if_neg (by rw [h]; exact Bool.false_ne_true)]
  split
  · exact ⟨0, Nat.zero_le _, by simp, by simp⟩
  · obtain ⟨k, hk, h1, h2⟩ := processQueueLoop_fifo cfg env n now
      (setProcessingFlag st true).emailQueue.length (setProcessingFlag st true)
    rw [setProcessingFlag_emailQueue] at hk h1 h2
    rw [setProcessingFlag_settlements] at h2
    refine ⟨k, hk, ?_, ?_⟩
    · rw [setProcessingFlag_emailQueue]
      exact h1
    · rw [setProcessingFlag_settlements]
      exact h2

/-- C8: a valid, non-duplicate submission denied admission is appended
to the tail of the pending queue and handed a deferred promise, with no
settlement, status write or provider contact at that point; a drain pass
(started only when none is active) removes entries from the head in FIFO
order and settles each removed entry's promise exactly once, in order;
and a drain requested while a pass is active changes nothing (no second
concurrent pass). -/
theorem queued_fifo_single_drain (cfg : Config) (env : Nat → Nat → Except String String)
    (n now : Nat) (d : EmailData) (st : ServiceState) :
    (¬(d.emailId = "" ∨ d.recipient = "" ∨ d.subject = "" ∨ d.body = "") →
      st.sentEmailIds.contains d.emailId = false →
      (isRateLimited cfg now st.requestTimestamps).1 = true →
      (sendEmail cfg env n now d st).1 = SendOutcome.queued st.nextPromiseId ∧
      (sendEmail cfg env n now d st).2.emailQueue
        = st.emailQueue ++ [⟨d, st.nextPromiseId⟩] ∧
      (sendEmail cfg env n now d st).2.settlements = st.settlements ∧
      (sendEmail cfg env n now d st).2.contactTrace = st.contactTrace) ∧
    (st.isProcessingQueue = false →
      ∃ k, k ≤ st.emailQueue.length ∧
        (processQueue cfg env n now st).emailQueue = st.emailQueue.drop k ∧
        (processQueue cfg env n now st).settlements.map Prod.fst
          = st.settlements.map Prod.fst
            ++ (st.emailQueue.take k).map QueueEntry.promiseId) ∧
    (st.isProcessingQueue = true → processQueue cfg env n now st = st) := by
  refine ⟨fun hv hdup hrl => ?_, processQueue_fifo cfg env n now st, fun h => ?_⟩
  · have h := sendEmail_queued_effects cfg env n now d st hv hdup hrl
    exact ⟨h.1, h.2.1, h.2.2.1, h.2.2.2.2.2.2⟩
  · simp only [processQueue]
    rw [if_pos h]

/-- The service state after admitting id `"A"` at time 0 and queueing id
`"X"` at time 1 (budget 1 per 1000 ms window). -/
def queuedState : ServiceState :=
  run demoConfig okEnv 1 [Event.send 0 taskA, Event.send 1 taskX]

/-- Witness for `queued_fifo_single_drain`, at `queuedState` (one queued
entry, no active pass): a second rate-limited submission of `"X"` at
time 2 is appended to the tail with a fresh promise and nothing else
changes; a drain at time 2 settles a FIFO prefix; a drain while a pass
is (artificially) marked active is a no-op. -/
theorem queued_fifo_single_drain_witness :
    ((sendEmail demoConfig okEnv 1 2 taskX queuedState).1
        = SendOutcome.queued queuedState.nextPromiseId ∧
      (sendEmail demoConfig okEnv 1 2 taskX queuedState).2.emailQueue
        = queuedState.emailQueue ++ [⟨taskX, queuedState.nextPromiseId⟩] ∧
      (sendEmail demoConfig okEnv 1 2 taskX queuedState).2.settlements
        = queuedState.settlements ∧
      (sendEmail demoConfig okEnv 1 2 taskX queuedState).2.contactTrace
        = queuedState.contactTrace) ∧
    (∃ k, k ≤ queuedState.emailQueue.length ∧
      (processQueue demoConfig okEnv 1 2 queuedState).emailQueue
        = queuedState.emailQueue.drop k ∧
      (processQueue demoConfig okEnv 1 2 queuedState).settlements.map Prod.fst
        = queuedState.settlements.map Prod.fst
          ++ (queuedState.emailQueue.take k).map QueueEntry.promiseId) ∧
    processQueue demoConfig okEnv 1 2 (setProcessingFlag queuedState true)
      = setProcessingFlag queuedState true :=
  ⟨(queued_fifo_single_drain demoConfig okEnv 1 2 taskX queuedState).1
      (by decide) (by decide) (by decide),
    (queued_fifo_single_drain demoConfig okEnv 1 2 taskX queuedState).2.1 (by decide),
    (queued_fifo_single_drain demoConfig okEnv 1 2 taskX
      (setProcessingFlag queuedState true)).2.2 (by decide)⟩

end ResilientEmail
